import Mathlib

/-!
Shallow embedding of `src/picker.py` (tobchen/person-picker).

Conventions of the embedding:
* Python numbers (the JSON numbers and the float factors) are modelled as `ℚ`;
  every numeric value the program manipulates (counters, factors, weights,
  draws) is exact at the inputs the claims use, so rationals are faithful.
* `random.random()` is modelled as an explicit parameter `r : ℚ` standing for
  the uniform draw in `[0, 1)`; `random.random() * maximum` becomes
  `r * maximum`.
* Python `dict` (insertion ordered, unique keys) is modelled as a `List` of
  entries in insertion order; `d[k] = v` replaces the entry in place when the
  key is present (Python dicts keep the original position on update) and
  appends otherwise.
* Exceptions are modelled with `Except PyErr`; `PyErr` distinguishes the
  `ValueError`s that `Model.from_json` raises explicitly (Python's
  "malformed model" errors, each carrying the source's message naming the
  offending field) from the `TypeError`s that Python's `max` raises when it
  compares a number against a non-numeric value.
* Person names are modelled as `String`, following the document schema
  (`name` is a string).  Python itself would accept any hashable value as a
  name; `Model.from_json` below maps a non-string `name` value to a
  `TypeError`.  This is the one place the embedding narrows the source (it
  conflates Python's success on exotic hashable names with its `TypeError`
  on unhashable ones); every theorem below restricts itself to documents
  with string names, where the embedding and the source agree exactly.
-/

/-- A JSON value, as produced by `json.load`. -/
inductive Json where
  | null
  | bool (b : Bool)
  | num (q : ℚ)
  | str (s : String)
  | arr (elems : List Json)
  | obj (fields : List (String × Json))

/-- Python exception kinds that `Model.from_json` can raise: the explicit
`ValueError`s of the source (carrying the source's message) and the
`TypeError`s that arise from `max` applied to a non-numeric JSON value. -/
inductive PyErr where
  | valueError (msg : String)
  | typeError (msg : String)
deriving DecidableEq, Repr

/-- Python `d.get(key)` on a JSON object's field list: first entry with that key
(Python dicts have unique keys, so which occurrence is taken is immaterial
for any dict the program ever builds). -/
def lookupField (fields : List (String × Json)) (key : String) : Option Json :=
  fields.lookup key

/-- Lines 24-29 of `src/picker.py`, `Person.__init__`: both counters are clamped
with `max(0, ·)`; a freshly constructed person is always active. -/
structure Person where
  name : String
  times_unproposed : ℚ
  times_rejected : ℚ
  active : Bool
deriving DecidableEq, Repr

/-- The constructor `Person(name, times_unproposed, times_rejected)` (lines 25-29). -/
def Person.init (name : String) (times_unproposed times_rejected : ℚ) : Person :=
  { name := name
    times_unproposed := max 0 times_unproposed
    times_rejected := max 0 times_rejected
    active := true }

/-- Line 47-48. -/
def Person.increase_times_unproposed (p : Person) : Person :=
  { p with times_unproposed := p.times_unproposed + 1 }

/-- Line 50-51. -/
def Person.increase_times_rejected (p : Person) : Person :=
  { p with times_rejected := p.times_rejected + 1 }

/-- Lines 53-55. -/
def Person.reset (p : Person) : Person :=
  { p with times_unproposed := 0, times_rejected := 0 }

/-- Lines 57-58. -/
def Person.deactivate (p : Person) : Person :=
  { p with active := false }

/-- Lines 60-65. -/
def Person.to_json (p : Person) : Json :=
  .obj [("name", .str p.name),
        ("timesUnproposed", .num p.times_unproposed),
        ("timesRejected", .num p.times_rejected)]

/-- Lines 68-149 of `src/picker.py`.  `persons` is the `dict` of lines 92,
modelled as an insertion-ordered list; every person's `name` field equals its
dict key (line 97 inserts `Person(name, ...)` at key `name`). -/
structure Model where
  unproposed_factor : ℚ
  rejected_factor : ℚ
  persons : List Person
deriving DecidableEq, Repr

/-- The constructor `Model(unproposed_factor, rejected_factor)` (lines 91-94): both factors
clamped with `max(0.0, ·)`, empty person dict. -/
def Model.init (unproposed_factor rejected_factor : ℚ) : Model :=
  { unproposed_factor := max 0 unproposed_factor
    rejected_factor := max 0 rejected_factor
    persons := [] }

/-- Line 97, `self._persons[name] = Person(name, tu, tr)`: replace in place
when the key is present, append otherwise. -/
def dictInsert (ps : List Person) (p : Person) : List Person :=
  if ps.any (fun q => q.name = p.name) then
    ps.map (fun q => if q.name = p.name then p else q)
  else
    ps ++ [p]

/-- Lines 96-97. -/
def Model.add_person (m : Model) (name : String)
    (times_unproposed times_rejected : ℚ) : Model :=
  { m with persons := dictInsert m.persons (Person.init name times_unproposed times_rejected) }

/-- Lookup `self._persons.get(name)` followed by a mutation of the found person:
since the dict's keys are the persons' names, this updates exactly the
entries whose name is `name` (at most one in any dict the program builds). -/
def updateByName (ps : List Person) (name : String) (f : Person → Person) : List Person :=
  ps.map (fun p => if p.name = name then f p else p)

/-- Lines 99-102. -/
def Model.reject_name (m : Model) (name : String) : Model :=
  { m with persons := updateByName m.persons name Person.increase_times_rejected }

/-- Lines 104-107. -/
def Model.pick_name (m : Model) (name : String) : Model :=
  { m with persons := updateByName m.persons name Person.reset }

/-- Lines 109-112. -/
def Model.deactivate_name (m : Model) (name : String) : Model :=
  { m with persons := updateByName m.persons name Person.deactivate }

/-- Lines 114-115: the set comprehension, modelled as the (duplicate-free,
since dict keys are unique) list of active names in iteration order. -/
def Model.get_active_names (m : Model) : List String :=
  (m.persons.filter (fun p => p.active)).map (fun p => p.name)

/-- The weight expression of lines 123-124. -/
def Person.weight (p : Person) (unproposed_factor rejected_factor : ℚ) : ℚ :=
  1 + p.times_unproposed * unproposed_factor + p.times_rejected * rejected_factor

/-- Lines 118-124: the first loop of `get_random_name`.  Returns the final
`maximum` (the total weight) together with the `weights` list of
`(starting offset, name)` pairs; each active person is appended with the
`maximum` current *before* its own weight is added. -/
def Model.weights (m : Model) : ℚ × List (ℚ × String) :=
  m.persons.foldl
    (fun acc p =>
      if p.active then
        (acc.1 + p.weight m.unproposed_factor m.rejected_factor, acc.2 ++ [(acc.1, p.name)])
      else acc)
    (0, [])

/-- Lines 128-133: the second loop of `get_random_name`: scan all
`(offset, name)` pairs and keep updating the result to every entry whose
offset is strictly below `choice`; the final value is the last such entry. -/
def selectFromWeights (weights : List (ℚ × String)) (choice : ℚ) : Option String :=
  weights.foldl (fun name w => if w.1 < choice then some w.2 else name) none

/-- The function `get_random_name` with the value `choice = random.random() * maximum`
made explicit (line 126 onwards). -/
def Model.select_name (m : Model) (choice : ℚ) : Option String :=
  selectFromWeights m.weights.2 choice

/-- Lines 117-133, with the uniform draw `r` (for `random.random()`) passed
explicitly: `choice = r * maximum`. -/
def Model.get_random_name (m : Model) (r : ℚ) : Option String :=
  m.select_name (r * m.weights.1)

/-- Lines 135-142, `propose_name`, with the uniform draw passed explicitly.
Returns the drawn name together with the updated model.  Line 139's
`person.active and person.name != name` compares a string against an
`Optional[str]`: when the draw returned `None` every active person differs
from it, which is exactly `some p.name ≠ name` here. -/
def Model.propose_name (m : Model) (r : ℚ) : Option String × Model :=
  let name := m.get_random_name r
  (name,
   { m with persons := m.persons.map (fun p =>
       if p.active = true ∧ some p.name ≠ name then p.increase_times_unproposed else p) })

/-- Lines 144-149. -/
def Model.to_json (m : Model) : Json :=
  .obj [("unproposedFactor", .num m.unproposed_factor),
        ("rejectedFactor", .num m.rejected_factor),
        ("persons", .arr (m.persons.map Person.to_json))]

/-- Python's `max(0, v)` / `max(0.0, v)` applied to a JSON value `v`, as in
`Person.__init__` and `Model.__init__`: numbers compare normally, booleans
are integers in Python (`True` = 1, `False` = 0, so `max(0, b)` has that
numeric value), and every other JSON value raises
`TypeError: '<' not supported`.  The clamp itself is kept in
`Person.init`/`Model.init`; this function only performs the numeric reading
that `max` needs, raising where `max` would raise. -/
def jsonNum (v : Json) : Except PyErr ℚ :=
  match v with
  | .num q => .ok q
  | .bool b => .ok (if b then 1 else 0)
  | _ => .error (.typeError "comparison not supported between instances")

/-- Lines 80-87: the per-person loop of `Model.from_json`.  For each element:
not a JSON object → `ValueError`; no `"name"` key → `ValueError`; then
`add_person(person["name"], person.get("timesUnproposed", 0),
person.get("timesRejected", 0))` constructs `Person`, whose `max(0, ·)`
clamps raise `TypeError` on non-numeric counters (first `timesUnproposed`,
then `timesRejected`); finally a non-string name raises `TypeError` (see the
header note: this stands for Python's failure on unhashable names and
narrows its acceptance of exotic hashable ones — no theorem below depends on
a non-string name value). -/
def addPersonsFromJson (m : Model) : List Json → Except PyErr Model
  | [] => .ok m
  | pj :: rest =>
    match pj with
    | .obj pfields =>
      if (lookupField pfields "name").isSome then
        match jsonNum ((lookupField pfields "timesUnproposed").getD (.num 0)) with
        | .error e => .error e
        | .ok tu =>
          match jsonNum ((lookupField pfields "timesRejected").getD (.num 0)) with
          | .error e => .error e
          | .ok tr =>
            match (lookupField pfields "name").getD .null with
            | .str s => addPersonsFromJson (m.add_person s tu tr) rest
            | _ => .error (.typeError "unhashable or non-string name")
      else .error (.valueError "Person must have a name!")
    | _ => .error (.valueError "Person must be a JSON object!")

/-- Lines 69-89, `Model.from_json`: top level must be an object; the model is
constructed from `json_obj.get("unproposedFactor", 0.5)` and
`json_obj.get("rejectedFactor", 0.2)` (whose `max(0.0, ·)` clamps raise
`TypeError` on non-numeric values, first factor first); then
`json_obj.get("persons", [])` must be an array; then each person is added in
order. -/
def Model.from_json (j : Json) : Except PyErr Model :=
  match j with
  | .obj fields =>
    match jsonNum ((lookupField fields "unproposedFactor").getD (.num (1/2))) with
    | .error e => .error e
    | .ok uf =>
      match jsonNum ((lookupField fields "rejectedFactor").getD (.num (1/5))) with
      | .error e => .error e
      | .ok rf =>
        match (lookupField fields "persons").getD (.arr []) with
        | .arr persons => addPersonsFromJson (Model.init uf rf) persons
        | _ => .error (.valueError "Person list must be a JSON array!")
  | _ => .error (.valueError "Settings must be a JSON object!")

/-- Whether `from_json` failed with one of the source's explicit
`ValueError`s — the "malformed model" errors whose messages name the
offending field. -/
def isMalformedModelError (r : Except PyErr Model) : Bool :=
  match r with
  | .error (.valueError _) => true
  | _ => false

/-- Written from the spec (§4.2), for comparison with the code: a
person-record violating the spec's person-record conditions — not an
object/record, or lacking `name`. -/
def badPersonRecord (pj : Json) : Bool :=
  match pj with
  | .obj pfields => (lookupField pfields "name").isNone
  | _ => true

/-- Written from the spec (§4.2), for comparison with the code: the four
malformed-model conditions.  The document is malformed when the top level is
not an object, or `persons` is present but not an array, or some
person-record is not an object, or some person-record lacks `name`. -/
def specMalformedDoc (j : Json) : Bool :=
  match j with
  | .obj fields =>
    match lookupField fields "persons" with
    | none => false
    | some (.arr ps) => ps.any badPersonRecord
    | some _ => true
  | _ => true

/-- The field at `key`, when present, is a JSON number. -/
def numOrAbsent (fields : List (String × Json)) (key : String) : Bool :=
  match lookupField fields key with
  | none => true
  | some (.num _) => true
  | some _ => false

/-- A person-record whose leaves are well typed: if it is an object, its
`name` (when present) is a string and its counter fields (when present) are
numbers. -/
def wtPersonRecord (pj : Json) : Bool :=
  match pj with
  | .obj pfields =>
    (match lookupField pfields "name" with
     | none => true
     | some (.str _) => true
     | some _ => false) &&
    numOrAbsent pfields "timesUnproposed" && numOrAbsent pfields "timesRejected"
  | _ => true

/-- The well-typedness proviso for the leaves of a document: factor fields,
when present, are numbers; every person-record is leaf-well-typed.  Inside
this class of documents the `TypeError` paths of `from_json` are
unreachable. -/
def wellTypedLeaves (j : Json) : Bool :=
  match j with
  | .obj fields =>
    numOrAbsent fields "unproposedFactor" && numOrAbsent fields "rejectedFactor" &&
    (match lookupField fields "persons" with
     | some (.arr ps) => ps.all wtPersonRecord
     | _ => true)
  | _ => true

/-- Lines 174-178 of `src/picker.py`, the temporary-name probe of `write_model`:

    i = 0
    while True:
        tmp_path = f"<path>_<i>"
        if not os.path.exists(tmp_path):
            break

`ex i` models `os.path.exists(f"<path>_<i>")` for the suffix `i`.  The loop
body never changes `i` (the source has no increment), so each iteration
re-probes the same suffix.  `fuel` bounds how many loop iterations are
inspected: `some i` means the loop exits with suffix `i` within `fuel`
iterations, `none` means it is still looping after `fuel` iterations. -/
def probe_tmp_index (ex : Nat → Bool) : Nat → Nat → Option Nat
  | 0, _ => none
  | fuel + 1, i => if ex i then probe_tmp_index ex fuel i else some i

/-- A directory that already contains `<path>_0` but not `<path>_1` (nor any
higher suffix): the failing input of the probe. -/
def dirWithTmp0 : Nat → Bool := fun i => decide (i = 0)

/-- An in-session operation on the model, excluding `add_person` (which the
interactive session never calls; `from_json` alone does).  `propose` carries
its uniform draw. -/
inductive SessionOp where
  | propose (r : ℚ)
  | pick (name : String)
  | reject (name : String)
  | deactivate (name : String)

/-- Apply one session operation. -/
def applyOp (m : Model) : SessionOp → Model
  | .propose r => (m.propose_name r).2
  | .pick n => m.pick_name n
  | .reject n => m.reject_name n
  | .deactivate n => m.deactivate_name n

/-- Apply a sequence of session operations in order. -/
def applyOps (m : Model) (ops : List SessionOp) : Model :=
  ops.foldl applyOp m

/-- Both counters of every person in the model are non-negative (§3's
invariant). -/
def CountersNonneg (m : Model) : Prop :=
  ∀ p ∈ m.persons, 0 ≤ p.times_unproposed ∧ 0 ≤ p.times_rejected

/-- Worked example of §8, entity `A(0,0)`. -/
def exA : Person := { name := "A", times_unproposed := 0, times_rejected := 0, active := true }

/-- Worked example of §8, entity `B(2,0)`. -/
def exB : Person := { name := "B", times_unproposed := 2, times_rejected := 0, active := true }

/-- Worked example of §8: `unproposedFactor = 0.5`, `rejectedFactor = 0.2`,
entities `A(0,0)` then `B(2,0)` in iteration order. -/
def exModelAB : Model :=
  { unproposed_factor := 1/2, rejected_factor := 1/5, persons := [exA, exB] }

/-- A model with one active entity `A(0,0)` and one inactive entity
`B(1,0)`. -/
def exModelMixed : Model :=
  { unproposed_factor := 1/2, rejected_factor := 1/5,
    persons := [{ name := "A", times_unproposed := 0, times_rejected := 0, active := true },
                { name := "B", times_unproposed := 1, times_rejected := 0, active := false }] }

/-- A model with the single active entity `A(0,0)`. -/
def exModelA : Model :=
  { unproposed_factor := 1/2, rejected_factor := 1/5,
    persons := [{ name := "A", times_unproposed := 0, times_rejected := 0, active := true }] }

/-- A document whose `unproposedFactor` is a string while its `persons`
field is present but not an array. -/
def exBadDoc : Json :=
  .obj [("unproposedFactor", .str "x"), ("persons", .num 5)]

/-- A model whose only entity is inactive. -/
def exModelInactive : Model :=
  { unproposed_factor := 1/2, rejected_factor := 1/5,
    persons := [{ name := "A", times_unproposed := 2, times_rejected := 3, active := false }] }

/-- A model with one active entity `A` carrying non-zero counters. -/
def exModelPick : Model :=
  { unproposed_factor := 1/2, rejected_factor := 1/5,
    persons := [{ name := "A", times_unproposed := 3, times_rejected := 5, active := true }] }

/-- A model holding an active and an inactive entity with non-zero
counters. -/
def exModelRT : Model :=
  { unproposed_factor := 1/2, rejected_factor := 1/5,
    persons := [{ name := "A", times_unproposed := 1, times_rejected := 2, active := true },
                { name := "B", times_unproposed := 0, times_rejected := 0, active := false }] }

/-- A model whose only entity, named `A`, is already inactive. -/
def exModelDeact : Model :=
  { unproposed_factor := 1/2, rejected_factor := 1/5,
    persons := [{ name := "A", times_unproposed := 0, times_rejected := 0, active := false }] }

/-- A well-typed document one of whose person-records lacks `name`. -/
def exDocNoName : Json :=
  .obj [("persons", .arr [.obj [("timesUnproposed", .num 3)]])]

/-- A session-operation sequence touching `A` through every non-add
operation. -/
def exOps : List SessionOp :=
  [.reject "A", .pick "A", .propose (1/2), .deactivate "A"]

/-- C1: `write_model`'s temporary-name probe must terminate for every target
path, choosing `<path>_1` when `<path>_0` already exists.  The code does
not: the probe loop never increments its index, so with `<path>_0` present
(and `<path>_1` absent) it re-probes suffix 0 forever — for every iteration
bound `fuel` the loop has not exited. -/
theorem write_model_probe_loops_forever :
    (∀ fuel : Nat, probe_tmp_index dirWithTmp0 fuel 0 = none) ∧
    dirWithTmp0 0 = true ∧ dirWithTmp0 1 = false := by
  refine ⟨?_, rfl, rfl⟩
  intro fuel
  induction fuel with
  | zero => rfl
  | succ n ih => simpa [probe_tmp_index, dirWithTmp0] using ih

/-- C2 counterexample: after `deactivate("A")` the name `"A"` is out of
`activeNames()`, but the subsequent operation `add("A", 0, 0)` — one of the
operations the claim quantifies over — installs a fresh *active* entity at
`"A"`, which therefore reappears in `activeNames()`. -/
theorem deactivated_name_reappears_after_add :
    "A" ∉ ((exModelA.deactivate_name "A").get_active_names) ∧
    "A" ∈ (((exModelA.deactivate_name "A").add_person "A" 0 0).get_active_names) := by
  decide

/-- C3: in the §8 example model (factors 0.5/0.2, entities `A(0,0)` then
`B(2,0)`), the weights are `A = 1`, `B = 2`, the cumulative offsets are
`A ↦ 0`, `B ↦ 1` with total 3, and the last-offset-strictly-below-the-draw
rule selects `B` at draw 1.5 and `A` at draw 0.5. -/
theorem weighted_example_selects :
    exA.weight (1/2) (1/5) = 1 ∧ exB.weight (1/2) (1/5) = 2 ∧
    exModelAB.weights.1 = 3 ∧ exModelAB.weights.2 = [(0, "A"), (1, "B")] ∧
    exModelAB.select_name (3/2) = some "B" ∧ exModelAB.select_name (1/2) = some "A" := by
  norm_num [Person.weight, exA, exB, Model.weights, exModelAB, Model.select_name,
    selectFromWeights]

/-- C6: with an active entity present (`exModelMixed` has active `A` and
inactive `B`), a uniform draw of exactly 0 makes `choice = 0`, no offset is
strictly below it, and `get_random_name` returns no selection; `propose_name`
then returns nothing while incrementing `timesUnproposed` of every active
entity (A goes 0 → 1) and leaving the inactive entity untouched. -/
theorem zero_draw_selects_nothing :
    exModelMixed.get_active_names = ["A"] ∧
    exModelMixed.get_random_name 0 = none ∧
    (exModelMixed.propose_name 0).1 = none ∧
    (exModelMixed.propose_name 0).2.persons =
      [{ name := "A", times_unproposed := 1, times_rejected := 0, active := true },
       { name := "B", times_unproposed := 1, times_rejected := 0, active := false }] := by
  refine ⟨by decide, ?_, ?_, ?_⟩ <;>
    norm_num [Model.get_random_name, Model.select_name, selectFromWeights, Model.weights,
      Model.propose_name, exModelMixed, Person.weight, Person.increase_times_unproposed,
      Option.some_ne_none]

/-- C8 counterexample: `exBadDoc` satisfies the spec's malformed-model
conditions (`persons` is present but not an array), yet `from_json` does not
fail with a field-naming malformed-model `ValueError`: the non-numeric
`unproposedFactor` makes `max(0.0, ·)` raise a `TypeError` first. -/
theorem malformed_doc_fails_with_type_error :
    specMalformedDoc exBadDoc = true ∧
    Model.from_json exBadDoc = .error (.typeError "comparison not supported between instances") ∧
    isMalformedModelError (Model.from_json exBadDoc) = false := by
  exact ⟨rfl, rfl, rfl⟩

/-- Folding the weight loop over inactive persons leaves the accumulator
unchanged. -/
theorem foldl_weights_inactive (uf rf : ℚ) :
    ∀ (ps : List Person), (∀ p ∈ ps, p.active = false) →
    ∀ acc : ℚ × List (ℚ × String),
      ps.foldl
        (fun acc p =>
          if p.active then (acc.1 + p.weight uf rf, acc.2 ++ [(acc.1, p.name)]) else acc)
        acc = acc := by
  intro ps
  induction ps with
  | nil => intro _ acc; rfl
  | cons q qs ih =>
    intro hq acc
    have hqf : q.active = false := hq q (List.mem_cons_self _ _)
    rw [List.foldl_cons]
    rw [if_neg (by simp [hqf])]
    exact ih (fun p hp => hq p (List.mem_cons_of_mem _ hp)) acc

/-- C7: on a model with zero active entities, `get_random_name` returns no
selection (and, being a total function of the model and the draw, it cannot
raise; the embedding contains no division at all, so there is no division by
zero to begin with: `total_weight` is 0 and the interval list is empty). -/
theorem no_active_entity_no_selection (m : Model) (r : ℚ)
    (h : ∀ p ∈ m.persons, p.active = false) :
    m.get_random_name r = none := by
  have hw : m.weights = (0, []) :=
    foldl_weights_inactive m.unproposed_factor m.rejected_factor m.persons h (0, [])
  unfold Model.get_random_name Model.select_name
  rw [hw]
  rfl

/-- C7 witness: the concrete all-inactive model at the draw 3/7. -/
theorem no_active_entity_no_selection_witness :
    exModelInactive.get_random_name (3/7) = none :=
  no_active_entity_no_selection exModelInactive (3/7) (by decide)

/-- C9: `pick(name)` leaves both counters of the entity at `name` at exactly
0 regardless of their prior values, keeps every other entity in the model,
and is a no-op when the name is unknown. -/
theorem pick_resets_counters :
    ∀ (m : Model) (name : String),
      (∀ p ∈ (m.pick_name name).persons, p.name = name →
          p.times_unproposed = 0 ∧ p.times_rejected = 0) ∧
      (∀ p ∈ m.persons, p.name ≠ name → p ∈ (m.pick_name name).persons) ∧
      ((∀ p ∈ m.persons, p.name ≠ name) → m.pick_name name = m) := by
  intro m name
  refine ⟨?_, ?_, ?_⟩
  · intro p hp hname
    have hp' : p ∈ m.persons.map (fun q => if q.name = name then q.reset else q) := hp
    obtain ⟨q, hq, rfl⟩ := List.mem_map.mp hp'
    by_cases h : q.name = name
    · rw [if_pos h]
      exact ⟨rfl, rfl⟩
    · rw [if_neg h] at hname
      exact absurd hname h
  · intro p hp hname
    have : p ∈ m.persons.map (fun q => if q.name = name then q.reset else q) :=
      List.mem_map.mpr ⟨p, hp, by rw [if_neg hname]⟩
    exact this
  · intro hall
    have hmap : updateByName m.persons name Person.reset = m.persons := by
      unfold updateByName
      conv_rhs => rw [← List.map_id m.persons]
      exact List.map_congr_left (fun p hp => by rw [if_neg (hall p hp)]; rfl)
    unfold Model.pick_name
    rw [hmap]

/-- C9 witness: picking `A` in a model where `A` holds counters (3, 5)
leaves both at 0, and picking the unknown name `B` is a no-op. -/
theorem pick_resets_counters_witness :
    ((⟨"A", 0, 0, true⟩ : Person).times_unproposed = 0 ∧
     (⟨"A", 0, 0, true⟩ : Person).times_rejected = 0) ∧
    exModelPick.pick_name "B" = exModelPick :=
  ⟨(pick_resets_counters exModelPick "A").1 ⟨"A", 0, 0, true⟩
      (by simp [exModelPick, Model.pick_name, updateByName, Person.reset]) rfl,
   (pick_resets_counters exModelPick "B").2.2 (by decide)⟩

/-- C4: `propose` returns the name chosen by `get_random_name` and rebuilds
the person list so that exactly the active entities whose name differs from
the returned name — all active entities when the result is empty — get
`timesUnproposed` raised by exactly 1 (name, active flag and `timesRejected`
untouched), while every other entity, in particular every inactive one, is
left exactly as it was.  The factors are untouched as well. -/
theorem propose_increments_unproposed (m : Model) (r : ℚ) :
    (m.propose_name r).1 = m.get_random_name r ∧
    (m.propose_name r).2.persons =
      m.persons.map (fun p =>
        match m.get_random_name r with
        | none =>
          if p.active = true then
            { p with times_unproposed := p.times_unproposed + 1 } else p
        | some s =>
          if p.active = true ∧ p.name ≠ s then
            { p with times_unproposed := p.times_unproposed + 1 } else p) ∧
    (m.propose_name r).2.unproposed_factor = m.unproposed_factor ∧
    (m.propose_name r).2.rejected_factor = m.rejected_factor := by
  refine ⟨rfl, ?_, rfl, rfl⟩
  have hlhs : (m.propose_name r).2.persons =
      m.persons.map (fun p =>
        if p.active = true ∧ some p.name ≠ m.get_random_name r
        then p.increase_times_unproposed else p) := rfl
  rw [hlhs]
  apply List.map_congr_left
  intro p _
  cases h : m.get_random_name r with
  | none => simp [Person.increase_times_unproposed, Option.some_ne_none]
  | some s => simp [Person.increase_times_unproposed]

/-- A person produced by an update that preserves non-negative counters. -/
theorem updateByName_nonneg (f : Person → Person)
    (hf : ∀ p : Person, 0 ≤ p.times_unproposed ∧ 0 ≤ p.times_rejected →
        0 ≤ (f p).times_unproposed ∧ 0 ≤ (f p).times_rejected)
    (ps : List Person) (name : String)
    (hps : ∀ p ∈ ps, 0 ≤ p.times_unproposed ∧ 0 ≤ p.times_rejected) :
    ∀ p ∈ updateByName ps name f, 0 ≤ p.times_unproposed ∧ 0 ≤ p.times_rejected := by
  intro p hp
  obtain ⟨q, hq, rfl⟩ := List.mem_map.mp hp
  by_cases h : q.name = name
  · rw [if_pos h]
    exact hf q (hps q hq)
  · rw [if_neg h]
    exact hps q hq

/-- C10: both counters stay ≥ 0: `Person.__init__` clamps its inputs, and
every model operation (`add_person`, `propose_name`, `reject_name`,
`pick_name`, `deactivate_name`) preserves the invariant. -/
theorem counters_never_negative :
    (∀ (name : String) (tu tr : ℚ),
        0 ≤ (Person.init name tu tr).times_unproposed ∧
        0 ≤ (Person.init name tu tr).times_rejected) ∧
    (∀ (m : Model) (name : String) (tu tr : ℚ), CountersNonneg m →
        CountersNonneg (m.add_person name tu tr)) ∧
    (∀ (m : Model) (r : ℚ), CountersNonneg m → CountersNonneg (m.propose_name r).2) ∧
    (∀ (m : Model) (name : String), CountersNonneg m → CountersNonneg (m.reject_name name)) ∧
    (∀ (m : Model) (name : String), CountersNonneg m → CountersNonneg (m.pick_name name)) ∧
    (∀ (m : Model) (name : String), CountersNonneg m →
        CountersNonneg (m.deactivate_name name)) := by
  have hinit : ∀ (name : String) (tu tr : ℚ),
      0 ≤ (Person.init name tu tr).times_unproposed ∧
      0 ≤ (Person.init name tu tr).times_rejected :=
    fun _ tu tr => ⟨le_max_left 0 tu, le_max_left 0 tr⟩
  refine ⟨hinit, ?_, ?_, ?_, ?_, ?_⟩
  · intro m name tu tr hm p hp
    have hp' : p ∈ dictInsert m.persons (Person.init name tu tr) := hp
    unfold dictInsert at hp'
    by_cases h : m.persons.any (fun q => q.name = (Person.init name tu tr).name)
    · rw [if_pos h] at hp'
      obtain ⟨q, hq, rfl⟩ := List.mem_map.mp hp'
      by_cases hn : q.name = (Person.init name tu tr).name
      · rw [if_pos hn]
        exact hinit name tu tr
      · rw [if_neg hn]
        exact hm q hq
    · rw [if_neg h] at hp'
      rcases List.mem_append.mp hp' with hold | hnew
      · exact hm p hold
      · rw [List.mem_singleton.mp hnew]
        exact hinit name tu tr
  · intro m r hm p hp
    have hp' : p ∈ m.persons.map (fun q =>
        if q.active = true ∧ some q.name ≠ m.get_random_name r
        then q.increase_times_unproposed else q) := hp
    obtain ⟨q, hq, rfl⟩ := List.mem_map.mp hp'
    by_cases h : q.active = true ∧ some q.name ≠ m.get_random_name r
    · rw [if_pos h]
      exact ⟨add_nonneg (hm q hq).1 zero_le_one, (hm q hq).2⟩
    · rw [if_neg h]
      exact hm q hq
  · intro m name hm
    exact updateByName_nonneg Person.increase_times_rejected
      (fun p hp => ⟨hp.1, add_nonneg hp.2 zero_le_one⟩) m.persons name hm
  · intro m name hm
    exact updateByName_nonneg Person.reset
      (fun p _ => ⟨le_refl 0, le_refl 0⟩) m.persons name hm
  · intro m name hm
    exact updateByName_nonneg Person.deactivate (fun p hp => hp) m.persons name hm

/-- C10 witness: construction clamps the negative inputs (-3, -4) to 0, and
rejecting `A` in a concrete non-negative model keeps the invariant. -/
theorem counters_never_negative_witness :
    (0 ≤ (Person.init "A" (-3) (-4)).times_unproposed ∧
     0 ≤ (Person.init "A" (-3) (-4)).times_rejected) ∧
    CountersNonneg (exModelPick.reject_name "A") :=
  ⟨counters_never_negative.1 "A" (-3) (-4),
   counters_never_negative.2.2.2.1 exModelPick "A"
     (by intro p hp; rw [List.mem_singleton.mp hp]; exact ⟨by norm_num, by norm_num⟩)⟩

/-- One session operation never turns a person named `name` active again. -/
theorem applyOp_preserves_inactive (m : Model) (o : SessionOp) (name : String)
    (hm : ∀ p ∈ m.persons, p.name = name → p.active = false) :
    ∀ p ∈ (applyOp m o).persons, p.name = name → p.active = false := by
  intro p hp hpname
  cases o with
  | propose r =>
    have hp' : p ∈ m.persons.map (fun q =>
        if q.active = true ∧ some q.name ≠ m.get_random_name r
        then q.increase_times_unproposed else q) := hp
    obtain ⟨q, hq, rfl⟩ := List.mem_map.mp hp'
    by_cases h : q.active = true ∧ some q.name ≠ m.get_random_name r
    · rw [if_pos h] at hpname ⊢
      exact hm q hq hpname
    · rw [if_neg h] at hpname ⊢
      exact hm q hq hpname
  | pick n =>
    have hp' : p ∈ m.persons.map (fun q => if q.name = n then q.reset else q) := hp
    obtain ⟨q, hq, rfl⟩ := List.mem_map.mp hp'
    by_cases h : q.name = n
    · rw [if_pos h] at hpname ⊢
      exact hm q hq hpname
    · rw [if_neg h] at hpname ⊢
      exact hm q hq hpname
  | reject n =>
    have hp' : p ∈ m.persons.map (fun q =>
        if q.name = n then q.increase_times_rejected else q) := hp
    obtain ⟨q, hq, rfl⟩ := List.mem_map.mp hp'
    by_cases h : q.name = n
    · rw [if_pos h] at hpname ⊢
      exact hm q hq hpname
    · rw [if_neg h] at hpname ⊢
      exact hm q hq hpname
  | deactivate n =>
    have hp' : p ∈ m.persons.map (fun q => if q.name = n then q.deactivate else q) := hp
    obtain ⟨q, hq, rfl⟩ := List.mem_map.mp hp'
    by_cases h : q.name = n
    · rw [if_pos h]
      rfl
    · rw [if_neg h] at hpname ⊢
      exact hm q hq hpname

/-- C2 amended: once every person named `name` is inactive, it stays
inactive under every subsequent sequence of `propose`, `pick`, `reject` and
`deactivate` (the session operations — `add` excluded, see the
counterexample), and `name` never reappears in `activeNames()`; moreover
repeated `deactivate` calls are idempotent. -/
theorem deactivate_permanent_in_session :
    (∀ (m : Model) (ops : List SessionOp) (name : String),
        (∀ p ∈ m.persons, p.name = name → p.active = false) →
        (∀ p ∈ (applyOps m ops).persons, p.name = name → p.active = false) ∧
        name ∉ (applyOps m ops).get_active_names) ∧
    (∀ (m : Model) (name : String),
        (m.deactivate_name name).deactivate_name name = m.deactivate_name name) := by
  constructor
  · have hall : ∀ (ops : List SessionOp) (m : Model) (name : String),
        (∀ p ∈ m.persons, p.name = name → p.active = false) →
        ∀ p ∈ (applyOps m ops).persons, p.name = name → p.active = false := by
      intro ops
      induction ops with
      | nil => intro m name hm; exact hm
      | cons o os ih =>
        intro m name hm
        exact ih (applyOp m o) name (applyOp_preserves_inactive m o name hm)
    intro m ops name hm
    refine ⟨hall ops m name hm, ?_⟩
    intro hmem
    have hmem' : name ∈ ((applyOps m ops).persons.filter
        (fun p => p.active)).map (fun p => p.name) := hmem
    obtain ⟨p, hpf, hpname⟩ := List.mem_map.mp hmem'
    have hpmem := (List.mem_filter.mp hpf).1
    have hpact : p.active = true := by simpa using (List.mem_filter.mp hpf).2
    have : p.active = false := hall ops m name hm p hpmem hpname
    rw [this] at hpact
    exact Bool.false_ne_true hpact
  · intro m name
    have hmap : updateByName (updateByName m.persons name Person.deactivate)
        name Person.deactivate = updateByName m.persons name Person.deactivate := by
      unfold updateByName
      rw [List.map_map]
      apply List.map_congr_left
      intro q _
      by_cases h : q.name = name
      · simp only [Function.comp_apply, if_pos h, Person.deactivate, if_pos h]
      · simp only [Function.comp_apply, if_neg h, if_neg h]
    show Model.mk m.unproposed_factor m.rejected_factor (updateByName (updateByName m.persons name Person.deactivate) name Person.deactivate) = m.deactivate_name name
    rw [hmap]
    rfl

/-- C2 amended witness: with `A` already inactive, the four-operation
session `[reject A, pick A, propose ½, deactivate A]` never lets `A`
reappear among the active names, and a double deactivation of `A` equals a
single one. -/
theorem deactivate_permanent_in_session_witness :
    "A" ∉ (applyOps exModelDeact exOps).get_active_names ∧
    (exModelA.deactivate_name "A").deactivate_name "A" = exModelA.deactivate_name "A" :=
  ⟨(deactivate_permanent_in_session.1 exModelDeact exOps "A" (by decide)).2,
   deactivate_permanent_in_session.2 exModelA "A"⟩

/-- When the field at `key` is a number or absent, reading it through
`get(key, default)` and Python's `max` succeeds. -/
theorem jsonNum_getD_ok (pfields : List (String × Json)) (key : String) (d : ℚ)
    (h : numOrAbsent pfields key = true) :
    ∃ q, jsonNum ((lookupField pfields key).getD (.num d)) = .ok q := by
  unfold numOrAbsent at h
  cases hl : lookupField pfields key with
  | none => exact ⟨d, rfl⟩
  | some v =>
    rw [hl] at h
    cases v with
    | num q => exact ⟨q, rfl⟩
    | null => exact Bool.noConfusion h
    | bool b => exact Bool.noConfusion h
    | str s => exact Bool.noConfusion h
    | arr xs => exact Bool.noConfusion h
    | obj fs => exact Bool.noConfusion h

/-- Over leaf-well-typed person-records, the person loop of `from_json`
fails with a `ValueError` exactly when some record is not an object or
lacks `name`. -/
theorem addPersons_malformed (ps : List Json) :
    ps.all wtPersonRecord = true →
    ∀ m : Model,
      (isMalformedModelError (addPersonsFromJson m ps) = true ↔
       ps.any badPersonRecord = true) := by
  induction ps with
  | nil =>
    intro _ m
    simp [addPersonsFromJson, isMalformedModelError]
  | cons pj rest ih =>
    intro hwt m
    rw [List.all_cons, Bool.and_eq_true] at hwt
    obtain ⟨hpj, hrest⟩ := hwt
    rw [List.any_cons]
    cases pj with
    | obj pfields =>
      unfold wtPersonRecord at hpj
      rw [Bool.and_eq_true, Bool.and_eq_true] at hpj
      obtain ⟨⟨hname, htu⟩, htr⟩ := hpj
      cases hn : lookupField pfields "name" with
      | none =>
        simp [addPersonsFromJson, hn, isMalformedModelError, badPersonRecord]
      | some v =>
        rw [hn] at hname
        cases v with
        | str s =>
          obtain ⟨tuv, htuv⟩ := jsonNum_getD_ok pfields "timesUnproposed" 0 htu
          obtain ⟨trv, htrv⟩ := jsonNum_getD_ok pfields "timesRejected" 0 htr
          have hstep : addPersonsFromJson m (Json.obj pfields :: rest) =
              addPersonsFromJson (m.add_person s tuv trv) rest := by
            simp [addPersonsFromJson, hn, htuv, htrv]
          rw [hstep]
          have hbad : badPersonRecord (Json.obj pfields) = false := by
            simp [badPersonRecord, hn]
          rw [hbad]
          simp only [Bool.false_or]
          exact ih hrest (m.add_person s tuv trv)
        | null => exact Bool.noConfusion hname
        | bool b => exact Bool.noConfusion hname
        | num q => exact Bool.noConfusion hname
        | arr xs => exact Bool.noConfusion hname
        | obj fs => exact Bool.noConfusion hname
    | null => simp [addPersonsFromJson, isMalformedModelError, badPersonRecord]
    | bool b => simp [addPersonsFromJson, isMalformedModelError, badPersonRecord]
    | num q => simp [addPersonsFromJson, isMalformedModelError, badPersonRecord]
    | str s => simp [addPersonsFromJson, isMalformedModelError, badPersonRecord]
    | arr xs => simp [addPersonsFromJson, isMalformedModelError, badPersonRecord]

/-- C8 amended: over documents whose leaves are well typed (factor and
counter fields, when present, are numbers; `name` values, when present, are
strings — outside this proviso the counterexample applies), `from_json`
fails with a field-naming malformed-model `ValueError` exactly when one of
the four spec conditions holds; since the failure is an `Except.error`, no
(partial) model is returned on it. -/
theorem malformed_error_iff_spec_conditions :
    ∀ j : Json, wellTypedLeaves j = true →
      (isMalformedModelError (Model.from_json j) = true ↔ specMalformedDoc j = true) := by
  intro j hwt
  cases j with
  | obj fields =>
    unfold wellTypedLeaves at hwt
    rw [Bool.and_eq_true, Bool.and_eq_true] at hwt
    obtain ⟨⟨h1, h2⟩, h3⟩ := hwt
    obtain ⟨q1, hq1⟩ := jsonNum_getD_ok fields "unproposedFactor" (1/2) h1
    obtain ⟨q2, hq2⟩ := jsonNum_getD_ok fields "rejectedFactor" (1/5) h2
    cases hp : lookupField fields "persons" with
    | none =>
      have hred : Model.from_json (Json.obj fields) =
          addPersonsFromJson (Model.init q1 q2) [] := by
        simp only [Model.from_json]
        rw [hq1, hq2, hp]
        rfl
      rw [hred]
      simp [addPersonsFromJson, isMalformedModelError, specMalformedDoc, hp]
    | some v =>
      cases v with
      | arr ps =>
        rw [hp] at h3
        have hred : Model.from_json (Json.obj fields) =
            addPersonsFromJson (Model.init q1 q2) ps := by
          simp only [Model.from_json]
          rw [hq1, hq2, hp]
          rfl
        rw [hred]
        have hspec : specMalformedDoc (Json.obj fields) = ps.any badPersonRecord := by
          simp [specMalformedDoc, hp]
        rw [hspec]
        exact addPersons_malformed ps h3 (Model.init q1 q2)
      | null =>
        have hred : Model.from_json (Json.obj fields) =
            .error (.valueError "Person list must be a JSON array!") := by
          simp only [Model.from_json]
          rw [hq1, hq2, hp]
          rfl
        rw [hred]
        simp [isMalformedModelError, specMalformedDoc, hp]
      | bool b =>
        have hred : Model.from_json (Json.obj fields) =
            .error (.valueError "Person list must be a JSON array!") := by
          simp only [Model.from_json]
          rw [hq1, hq2, hp]
          rfl
        rw [hred]
        simp [isMalformedModelError, specMalformedDoc, hp]
      | num q =>
        have hred : Model.from_json (Json.obj fields) =
            .error (.valueError "Person list must be a JSON array!") := by
          simp only [Model.from_json]
          rw [hq1, hq2, hp]
          rfl
        rw [hred]
        simp [isMalformedModelError, specMalformedDoc, hp]
      | str s =>
        have hred : Model.from_json (Json.obj fields) =
            .error (.valueError "Person list must be a JSON array!") := by
          simp only [Model.from_json]
          rw [hq1, hq2, hp]
          rfl
        rw [hred]
        simp [isMalformedModelError, specMalformedDoc, hp]
      | obj fs =>
        have hred : Model.from_json (Json.obj fields) =
            .error (.valueError "Person list must be a JSON array!") := by
          simp only [Model.from_json]
          rw [hq1, hq2, hp]
          rfl
        rw [hred]
        simp [isMalformedModelError, specMalformedDoc, hp]
  | null => simp [Model.from_json, isMalformedModelError, specMalformedDoc]
  | bool b => simp [Model.from_json, isMalformedModelError, specMalformedDoc]
  | num q => simp [Model.from_json, isMalformedModelError, specMalformedDoc]
  | str s => simp [Model.from_json, isMalformedModelError, specMalformedDoc]
  | arr xs => simp [Model.from_json, isMalformedModelError, specMalformedDoc]

/-- C8 amended witness: a well-typed document with a nameless person-record
makes `from_json` fail with the malformed-model `ValueError`. -/
theorem malformed_error_iff_spec_conditions_witness :
    isMalformedModelError (Model.from_json exDocNoName) = true :=
  (malformed_error_iff_spec_conditions exDocNoName (by decide)).mpr (by decide)

/-- Feeding serialized persons through the person loop of `from_json`
appends each one, re-activated, to the model being built: the names are
fresh and pairwise distinct (dict keys) and the counters non-negative, so
neither the dict insert nor the `max(0, ·)` clamps alter anything. -/
theorem addPersons_of_to_json (ps : List Person) :
    ∀ (m : Model),
      (∀ p ∈ ps, 0 ≤ p.times_unproposed ∧ 0 ≤ p.times_rejected) →
      (m.persons.map Person.name ++ ps.map Person.name).Nodup →
      addPersonsFromJson m (ps.map Person.to_json) =
        .ok { m with persons := m.persons ++ ps.map (fun p => { p with active := true }) } := by
  induction ps with
  | nil =>
    intro m _ _
    simp [addPersonsFromJson]
  | cons p rest ih =>
    intro m hcnt hnd
    have hstep : addPersonsFromJson m ((p :: rest).map Person.to_json) =
        addPersonsFromJson (m.add_person p.name p.times_unproposed p.times_rejected)
          (rest.map Person.to_json) := rfl
    rw [hstep]
    have hnotmem : p.name ∉ m.persons.map Person.name := by
      rcases List.nodup_append.mp hnd with ⟨-, -, hdisj⟩
      intro hmem
      exact hdisj hmem (by simp)
    have hip : Person.init p.name p.times_unproposed p.times_rejected =
        { p with active := true } := by
      unfold Person.init
      rw [max_eq_right (hcnt p (List.mem_cons_self p rest)).1,
        max_eq_right (hcnt p (List.mem_cons_self p rest)).2]
    have hadd : m.add_person p.name p.times_unproposed p.times_rejected =
        { m with persons := m.persons ++ [{ p with active := true }] } := by
      unfold Model.add_person dictInsert
      have hany : (m.persons.any
          (fun q => q.name = (Person.init p.name p.times_unproposed p.times_rejected).name))
          = false := by
        rw [List.any_eq_false]
        intro q hq
        simp only [Person.init, decide_eq_true_eq]
        intro hqe
        exact hnotmem (hqe ▸ List.mem_map_of_mem Person.name hq)
      rw [hany, if_neg Bool.false_ne_true, hip]
    rw [hadd]
    have hmapname : (m.persons ++ [{ p with active := true }]).map Person.name =
        m.persons.map Person.name ++ [p.name] := by
      simp
    have hnd2 : ((m.persons ++ [{ p with active := true }]).map Person.name ++
        rest.map Person.name).Nodup := by
      rw [hmapname, List.append_assoc, List.singleton_append]
      exact hnd
    rw [ih { m with persons := m.persons ++ [{ p with active := true }] }
      (fun q hq => hcnt q (List.mem_cons_of_mem _ hq)) hnd2]
    simp [List.append_assoc]

/-- C5: serializing and re-reading a model reproduces every entity's name
and counters and the factors, with every entity — the deactivated ones
included — active: deactivation is not persisted.  The hypotheses are the
invariants every program-built model carries: the names (dict keys) are
pairwise distinct, the counters non-negative (C10) and the factors
non-negative (clamped at construction). -/
theorem from_json_to_json_roundtrip (m : Model)
    (hnodup : (m.persons.map Person.name).Nodup)
    (hcnt : CountersNonneg m)
    (huf : 0 ≤ m.unproposed_factor) (hrf : 0 ≤ m.rejected_factor) :
    Model.from_json m.to_json =
      .ok { unproposed_factor := m.unproposed_factor
            rejected_factor := m.rejected_factor
            persons := m.persons.map (fun p => { p with active := true }) } := by
  have hred : Model.from_json m.to_json =
      addPersonsFromJson (Model.init m.unproposed_factor m.rejected_factor)
        (m.persons.map Person.to_json) := rfl
  rw [hred]
  have hinitm : Model.init m.unproposed_factor m.rejected_factor =
      { unproposed_factor := m.unproposed_factor
        rejected_factor := m.rejected_factor
        persons := ([] : List Person) } := by
    unfold Model.init
    rw [max_eq_right huf, max_eq_right hrf]
  rw [hinitm]
  rw [addPersons_of_to_json m.persons _ hcnt (by simpa using hnodup)]
  simp

/-- C5 witness: the concrete two-entity model (one active, one inactive)
round-trips, its inactive entity `B` reappearing active. -/
theorem from_json_to_json_roundtrip_witness :
    Model.from_json exModelRT.to_json =
      .ok { unproposed_factor := exModelRT.unproposed_factor
            rejected_factor := exModelRT.rejected_factor
            persons := exModelRT.persons.map (fun p => { p with active := true }) } :=
  from_json_to_json_roundtrip exModelRT (by decide)
    (by norm_num [CountersNonneg, exModelRT])
    (by norm_num [exModelRT]) (by norm_num [exModelRT])
